import Mathlib

/-!
Verification of the claude-stream-format core (src/main.rs): a line-by-line
transcoder from JSON stream records to human-readable summary lines.

The embedding models the Rust code faithfully:
* `JValue` models `serde_json::Value` (numbers abstracted to `Int`; no claim
  depends on numeric representation).
* Rust strings are UTF-8; `&s[..i]` slices at BYTE offset `i` and panics when
  `i` is not a character boundary.  We model a Lean `String` as its list of
  characters and byte positions via `Char.utf8Size`; a slice that would panic
  is represented by `none`.
* Functions that can panic return `Option`: `none` models the Rust panic.
-/

namespace StreamFormat

/-- Model of `serde_json::Value`. -/
inductive JValue where
  | null : JValue
  | bool : Bool → JValue
  | num : Int → JValue
  | str : String → JValue
  | arr : List JValue → JValue
  | obj : List (String × JValue) → JValue

/-- `Value::get(key)` on an object: the value at `key`, `None` otherwise. -/
def JValue.get (j : JValue) (key : String) : Option JValue :=
  match j with
  | .obj fields => List.lookup key fields
  | _ => none

/-- `Value::as_str()`: `Some` exactly on JSON strings. -/
def JValue.asStr : JValue → Option String
  | .str s => some s
  | _ => none

/-- `input.get(key).and_then(|v| v.as_str()).unwrap_or("?")`, the accessor
pattern used by every field extraction in `format_tool_use`. -/
def getStrOr (input : JValue) (key : String) : String :=
  ((input.get key).bind JValue.asStr).getD "?"

/-- UTF-8 byte length of a list of characters. -/
def byteLen (cs : List Char) : Nat :=
  (cs.map Char.utf8Size).sum

/-- UTF-8 byte length of a string (Rust `s.len()`). -/
def utf8Len (s : String) : Nat :=
  byteLen s.data

/-- Rust byte slice `&s[..n]` on the character list of `s`: the characters
making up the first `n` bytes when `n` is a character boundary, and `none`
(modelling the Rust panic) when `n` falls inside a character or past the end. -/
def takeBytes : List Char → Nat → Option (List Char)
  | _, 0 => some []
  | [], _ + 1 => none
  | c :: cs, n + 1 =>
    if c.utf8Size ≤ n + 1 then
      (takeBytes cs (n + 1 - c.utf8Size)).map (fun ds => c :: ds)
    else
      none

/-- `truncate` from src/main.rs.  `s.len()` is the UTF-8 byte length and
`&s[..max_len - 3]` is a byte slice; `none` models the panic that the slice
raises when `max_len - 3` is not a character boundary (and the `usize`
underflow when `max_len < 3` while `s` is longer than `max_len`). -/
def truncate (s : String) (maxLen : Nat) : Option String :=
  if utf8Len s ≤ maxLen then
    some s
  else if maxLen < 3 then
    none
  else
    (takeBytes s.data (maxLen - 3)).map (fun cs => String.mk cs ++ "...")

/-- `format_tool_use` from src/main.rs.  The only branch that can panic is
`Bash`, through `truncate`; every other branch is total, so the result is an
`Option String` with `none` modelling that panic. -/
def format_tool_use (name : String) (input : JValue) : Option String :=
  if name = "Read" then
    some ("📖 Read: " ++ getStrOr input "file_path")
  else if name = "Edit" then
    some ("✏️  Edit: " ++ getStrOr input "file_path")
  else if name = "Write" then
    some ("📝 Write: " ++ getStrOr input "file_path")
  else if name = "Bash" then
    (truncate (getStrOr input "command") 80).map (fun t => "💻 Bash: " ++ t)
  else if name = "Glob" then
    some ("🔍 Glob: " ++ getStrOr input "pattern")
  else if name = "Grep" then
    some ("🔍 Grep: " ++ getStrOr input "pattern")
  else if name = "TodoWrite" then
    some "📋 TodoWrite"
  else if name = "Task" then
    some ("🤖 Task: " ++ getStrOr input "description")
  else
    some ("🔧 " ++ name)

/-- `ContentBlock` from src/main.rs: an internally tagged enum over the
`"type"` discriminator with `Text`, `ToolUse` and a `#[serde(other)]`
catch-all `Other`. -/
inductive ContentBlock where
  | Text : String → ContentBlock
  | ToolUse : String → JValue → ContentBlock
  | Other : ContentBlock

/-- `AssistantMessage` from src/main.rs. -/
structure AssistantMessage where
  content : List ContentBlock

/-- `StreamMessage` from src/main.rs.  `msg_type` is the top-level `"type"`
field; `message` and `result` are `Option` fields (absent or `null` decode to
`none`). -/
structure StreamMessage where
  msg_type : String
  message : Option AssistantMessage
  result : Option String

/-- Serde decoding of one `ContentBlock` from a JSON value (internally tagged
by `"type"`, `#[serde(other)]` fallback): the block must be an object whose
`"type"` field is a string; tag `"text"` requires a string `text` field, tag
`"tool_use"` requires a string `name` field and a present `input` value, and
any other string tag decodes to `Other` ignoring the rest of the object. -/
def decodeContentBlock (j : JValue) : Option ContentBlock :=
  match j.get "type" with
  | some (.str t) =>
    if t = "text" then
      match j.get "text" with
      | some (.str s) => some (.Text s)
      | _ => none
    else if t = "tool_use" then
      match j.get "name", j.get "input" with
      | some (.str n), some v => some (.ToolUse n v)
      | _, _ => none
    else
      some .Other
  | _ => none

/-- Serde decoding of `AssistantMessage`: an object with a required `content`
field holding a sequence, each element of which decodes as a `ContentBlock`. -/
def decodeAssistantMessage (j : JValue) : Option AssistantMessage :=
  match j with
  | .obj _ =>
    match j.get "content" with
    | some (.arr xs) => (xs.mapM decodeContentBlock).map AssistantMessage.mk
    | _ => none
  | _ => none

/-- Serde decoding of an `Option` struct field: absent or `null` is `none`;
a present non-null value must decode, else the whole decode fails. -/
def decodeOptField (j : JValue) (key : String) (dec : JValue → Option α) :
    Option (Option α) :=
  match j.get key with
  | none => some none
  | some .null => some none
  | some v => (dec v).map some

/-- Serde decoding of `StreamMessage` from a JSON value: an object with a
required string `type` field and optional `message` / `result` fields. -/
def decodeStreamMessage (j : JValue) : Option StreamMessage :=
  match j with
  | .obj _ =>
    match j.get "type" with
    | some (.str t) =>
      match decodeOptField j "message" decodeAssistantMessage with
      | none => none
      | some msg =>
        match decodeOptField j "result" JValue.asStr with
        | none => none
        | some res => some ⟨t, msg, res⟩
    | _ => none
  | _ => none

/-- Rust `char::is_whitespace`: the Unicode `White_Space` property. -/
def isRustWhitespace (c : Char) : Bool :=
  (0x9 ≤ c.toNat ∧ c.toNat ≤ 0xD) ∨ c.toNat = 0x20 ∨ c.toNat = 0x85 ∨
    c.toNat = 0xA0 ∨ c.toNat = 0x1680 ∨
    (0x2000 ≤ c.toNat ∧ c.toNat ≤ 0x200A) ∨ c.toNat = 0x2028 ∨
    c.toNat = 0x2029 ∨ c.toNat = 0x202F ∨ c.toNat = 0x205F ∨
    c.toNat = 0x3000

/-- Rust `str::trim`: strip leading and trailing Unicode whitespace. -/
def rustTrim (s : String) : String :=
  String.mk (((s.data.dropWhile isRustWhitespace).reverse.dropWhile
    isRustWhitespace).reverse)

/-- Rust `Vec::join("\n")`. -/
def joinNl : List String → String
  | [] => ""
  | [x] => x
  | x :: y :: xs => x ++ "\n" ++ joinNl (y :: xs)

/-- The `for block in message.content` loop of `process_line`: the list of
contributed lines, `none` when a tool rendering panics.  A `Text` block whose
text trims to empty and an `Other` block contribute nothing. -/
def renderBlocks : List ContentBlock → Option (List String)
  | [] => some []
  | .Text t :: bs =>
    if rustTrim t = "" then renderBlocks bs
    else (renderBlocks bs).map (fun rest => t :: rest)
  | .ToolUse name input :: bs =>
    match format_tool_use name input with
    | none => none
    | some r => (renderBlocks bs).map (fun rest => r :: rest)
  | .Other :: bs => renderBlocks bs

/-- The dispatch of `process_line` after decoding.  The outer `Option` models
a panic (`none`); the inner `Option String` is the Rust `Option<String>`
return value. -/
def processMessage (m : StreamMessage) : Option (Option String) :=
  if m.msg_type = "assistant" then
    match m.message with
    | none => some none
    | some am =>
      match renderBlocks am.content with
      | none => none
      | some out => some (if out.isEmpty then none else some (joinNl out))
  else if m.msg_type = "result" then
    match m.result with
    | none => some none
    | some r => (truncate r 80).map (fun t => some ("✅ Done: " ++ t))
  else
    some none

/-- `process_line` on an already-parsed JSON value: a line that fails to
decode yields no output (`serde_json::from_str(line).ok()?`); a decoded
message is dispatched.  The outer `Option` models a panic. -/
def processLine (j : JValue) : Option (Option String) :=
  match decodeStreamMessage j with
  | none => some none
  | some m => processMessage m

/-! ### Helper lemmas -/

lemma eq_empty_of_data_eq_nil {s : String} (h : s.data = []) : s = "" := by
  cases s with
  | mk d => exact congrArg String.mk h

lemma append_ne_empty_left (a b : String) (h : a ≠ "") : a ++ b ≠ "" := by
  intro hh
  apply h
  have hd : (a ++ b).data = [] := by rw [hh]
  rw [String.data_append] at hd
  exact eq_empty_of_data_eq_nil (List.append_eq_nil.mp hd).1

lemma joinNl_ne_empty (x : String) (xs : List String) (hx : x ≠ "") :
    joinNl (x :: xs) ≠ "" := by
  cases xs with
  | nil => simpa [joinNl] using hx
  | cons y ys =>
    show x ++ "\n" ++ joinNl (y :: ys) ≠ ""
    rw [String.append_assoc]
    exact append_ne_empty_left x _ hx

lemma byteLen_takeBytes :
    ∀ (cs : List Char) (n : Nat) (ds : List Char),
      takeBytes cs n = some ds → byteLen ds = n := by
  intro cs
  induction cs with
  | nil =>
    intro n ds h
    cases n with
    | zero => simp [takeBytes] at h; subst h; simp [byteLen]
    | succ m => simp [takeBytes] at h
  | cons c cs ih =>
    intro n ds h
    cases n with
    | zero => simp [takeBytes] at h; subst h; simp [byteLen]
    | succ m =>
      rw [takeBytes] at h
      split at h
      case isTrue hle =>
        rw [Option.map_eq_some'] at h
        obtain ⟨ds', hds', rfl⟩ := h
        have := ih (m + 1 - c.utf8Size) ds' hds'
        simp only [byteLen, List.map_cons, List.sum_cons] at this ⊢
        omega
      case isFalse => exact absurd h (by simp)

lemma takeBytes_leading :
    ∀ (cs : List Char) (n : Nat) (ds : List Char),
      takeBytes cs n = some ds → ∃ es, cs = ds ++ es := by
  intro cs
  induction cs with
  | nil =>
    intro n ds h
    cases n with
    | zero => simp [takeBytes] at h; subst h; exact ⟨[], rfl⟩
    | succ m => simp [takeBytes] at h
  | cons c cs ih =>
    intro n ds h
    cases n with
    | zero => simp [takeBytes] at h; subst h; exact ⟨c :: cs, rfl⟩
    | succ m =>
      rw [takeBytes] at h
      split at h
      case isTrue hle =>
        rw [Option.map_eq_some'] at h
        obtain ⟨ds', hds', rfl⟩ := h
        obtain ⟨es, hes⟩ := ih _ ds' hds'
        exact ⟨es, by simp [hes]⟩
      case isFalse => exact absurd h (by simp)

lemma format_tool_use_ne_empty (name : String) (input : JValue) (r : String)
    (h : format_tool_use name input = some r) : r ≠ "" := by
  unfold format_tool_use at h
  repeat' split at h
  all_goals
    first
    | (rw [Option.map_eq_some'] at h
       obtain ⟨t, _, rfl⟩ := h
       exact append_ne_empty_left _ _ (by decide))
    | (cases h
       exact append_ne_empty_left _ _ (by decide))
    | (cases h; decide)

lemma renderBlocks_ne_empty :
    ∀ (bs : List ContentBlock) (out : List String),
      renderBlocks bs = some out → ∀ x ∈ out, x ≠ "" := by
  intro bs
  induction bs with
  | nil => intro out h; simp [renderBlocks] at h; subst h; simp
  | cons b bs ih =>
    intro out h x hx
    match b with
    | .Text t =>
      rw [renderBlocks] at h
      split at h
      · exact ih out h x hx
      case isFalse hne =>
        rw [Option.map_eq_some'] at h
        obtain ⟨rest, hrest, rfl⟩ := h
        rcases List.mem_cons.mp hx with rfl | hx'
        · intro hx0; exact hne (by simp [hx0, rustTrim])
        · exact ih rest hrest x hx'
    | .ToolUse nm inp =>
      rw [renderBlocks] at h
      split at h
      case h_1 => exact absurd h (by simp)
      case h_2 r hr =>
        rw [Option.map_eq_some'] at h
        obtain ⟨rest, hrest, rfl⟩ := h
        rcases List.mem_cons.mp hx with rfl | hx'
        · exact format_tool_use_ne_empty nm inp x hr
        · exact ih rest hrest x hx'
    | .Other =>
      rw [renderBlocks] at h
      exact ih out h x hx

/-! ### Claims -/

/-- Claim C1.  The claim says `truncate` is defined for every string and every
`maxLen ≥ 3` without slicing past the string's bounds and never panics, the
cut falling on a character boundary.  The code slices `&s[..max_len - 3]` at a
raw byte offset: for `s = "éééé"` (four two-byte characters, 8 bytes) and
`maxLen = 4` the offset 1 falls inside the first character and the slice
panics, which the model renders as `none`. -/
theorem c1_truncate_panics_on_multibyte :
    truncate "éééé" 4 = none ∧ ("éééé" : String).length = 4 ∧
      utf8Len "éééé" = 8 :=
  ⟨rfl, rfl, rfl⟩

/-- Claim C3, counterexample.  `s = "éééé"` has character length 4 ≤ 5, so the
claim says `truncate s 5 = s`; the code compares the BYTE length 8 > 5 and
returns `"é..."` instead. -/
theorem c3_counterexample :
    ("éééé" : String).length = 4 ∧ 4 ≤ 5 ∧
      truncate "éééé" 5 = some "é..." ∧ ("é..." : String) ≠ "éééé" :=
  ⟨rfl, by decide, rfl, by decide⟩

/-- If the byte length of `s` fits in `maxLen`, `truncate` returns `s`. -/
lemma truncate_of_le (s : String) (maxLen : Nat) (h : utf8Len s ≤ maxLen) :
    truncate s maxLen = some s := by
  simp [truncate, h]

/-- If the byte length of `s` exceeds `maxLen ≥ 3` and the byte offset
`maxLen - 3` is a character boundary, `truncate` returns the first
`maxLen - 3` bytes followed by `"..."`, a string of exactly `maxLen` bytes. -/
lemma truncate_of_gt (s : String) (maxLen : Nat) (cs : List Char)
    (hm : 3 ≤ maxLen) (hgt : maxLen < utf8Len s)
    (htb : takeBytes s.data (maxLen - 3) = some cs) :
    truncate s maxLen = some (String.mk cs ++ "...") ∧
      byteLen cs = maxLen - 3 ∧
      utf8Len (String.mk cs ++ "...") = maxLen := by
  have hb := byteLen_takeBytes s.data _ cs htb
  refine ⟨?_, hb, ?_⟩
  · simp [truncate, htb, Nat.not_le.mpr hgt, Nat.not_lt.mpr hm]
  · simp only [utf8Len, String.data_append]
    have h3 : byteLen (cs ++ ("..." : String).data) = byteLen cs + 3 := by
      simp [byteLen]
      decide
    rw [h3, hb]
    omega

/-- Claim C3, amended: lengths are UTF-8 BYTE lengths, not character counts.
For `maxLen ≥ 3`: if the byte length of `s` is at most `maxLen`, `truncate`
returns `s` unchanged; if it exceeds `maxLen` and the byte offset `maxLen - 3`
is a character boundary (`takeBytes` succeeds), the result is the first
`maxLen - 3` bytes of `s` followed by `"..."`, its byte length is exactly
`maxLen` and it ends with `"..."`. -/
theorem c3_truncate_bytes (s : String) (maxLen : Nat) (hm : 3 ≤ maxLen) :
    (utf8Len s ≤ maxLen → truncate s maxLen = some s) ∧
    (∀ cs, maxLen < utf8Len s → takeBytes s.data (maxLen - 3) = some cs →
      truncate s maxLen = some (String.mk cs ++ "...") ∧
      (∃ rest, s.data = cs ++ rest) ∧
      byteLen cs = maxLen - 3 ∧
      utf8Len (String.mk cs ++ "...") = maxLen ∧
      (∃ t, String.mk cs ++ "..." = t ++ "...")) := by
  constructor
  · exact truncate_of_le s maxLen
  · intro cs hgt htb
    obtain ⟨h1, h2, h3⟩ := truncate_of_gt s maxLen cs hm hgt htb
    exact ⟨h1, takeBytes_leading s.data _ cs htb, h2, h3, String.mk cs, rfl⟩

/-- Witness for the amended Claim C3 at concrete inputs. -/
theorem c3_truncate_bytes_witness :
    truncate "hi" 5 = some "hi" ∧ truncate "abcdefgh" 5 = some "ab..." := by
  constructor
  · exact (c3_truncate_bytes "hi" 5 (by decide)).1 (by decide)
  · exact ((c3_truncate_bytes "abcdefgh" 5 (by decide)).2
      ("ab" : String).data (by decide) rfl).1

/-- The Bash command that makes Claim C6 fail: 76 ASCII bytes, then a
two-byte character straddling the cut offset 77, then enough bytes to exceed
80 in total (81 bytes, 80 characters). -/
def c6BadCommand : String := String.mk (List.replicate 76 'a') ++ "éxyz"

/-- Claim C6.  The claim says `format_tool_use` is total and never fails for
any recognized tool and any input.  The `Bash` branch calls
`truncate(command, 80)`, which slices at byte offset 77; for a command of 81
bytes whose byte 77 falls inside a two-byte character the slice panics
(`none` in the model), so the rendering does fail. -/
theorem c6_bash_rendering_panics :
    format_tool_use "Bash" (JValue.obj [("command", JValue.str c6BadCommand)]) =
      none ∧ utf8Len c6BadCommand = 81 :=
  ⟨rfl, rfl⟩

/-- The result text that refutes Claim C8 as stated: 79 characters but 81
UTF-8 bytes. -/
def c8LongResult : String := String.mk (List.replicate 77 'a') ++ "éé"

/-- Claim C8, counterexample.  The claim says a result text shorter than 80
characters is emitted untruncated; `c8LongResult` has 79 characters, yet the
code truncates it (it compares the 81-byte length against 80). -/
theorem c8_counterexample :
    c8LongResult.length = 79 ∧
    processMessage ⟨"result", none, some c8LongResult⟩ =
      some (some ("✅ Done: " ++ (String.mk (List.replicate 77 'a') ++ "..."))) ∧
    ("✅ Done: " ++ (String.mk (List.replicate 77 'a') ++ "...")) ≠
      ("✅ Done: " ++ c8LongResult) :=
  ⟨rfl, rfl, by decide⟩

/-- Claim C8, amended: lengths are UTF-8 BYTE lengths.  For a decoded message
of kind `"result"`: an absent result text produces nothing; a result text of
at most 80 bytes is emitted untruncated after the fixed done marker; a longer
result text is emitted truncated to exactly 80 bytes (its first 77 bytes plus
`"..."`) whenever byte offset 77 is a character boundary. -/
theorem c8_result_line :
    (processMessage ⟨"result", none, none⟩ = some none) ∧
    (∀ r, utf8Len r ≤ 80 →
      processMessage ⟨"result", none, some r⟩ =
        some (some ("✅ Done: " ++ r))) ∧
    (∀ r cs, 80 < utf8Len r → takeBytes r.data 77 = some cs →
      processMessage ⟨"result", none, some r⟩ =
        some (some ("✅ Done: " ++ (String.mk cs ++ "..."))) ∧
      utf8Len (String.mk cs ++ "...") = 80) := by
  refine ⟨rfl, ?_, ?_⟩
  · intro r hle
    simp [processMessage, truncate_of_le r 80 hle]
  · intro r cs hgt htb
    obtain ⟨h1, _, h3⟩ := truncate_of_gt r 80 cs (by decide) hgt htb
    exact ⟨by simp [processMessage, h1], h3⟩

/-- Witness for the amended Claim C8 at concrete inputs. -/
theorem c8_result_line_witness :
    processMessage ⟨"result", none, none⟩ = some none ∧
    processMessage ⟨"result", none, some "done"⟩ =
      some (some ("✅ Done: " ++ "done")) := by
  exact ⟨c8_result_line.1, c8_result_line.2.1 "done" (by decide)⟩

/-- The marker glyph of a tool rendering: the first character of the string
`format_tool_use` produces (every rendering is non-empty and begins with its
marker).  The probe input is the empty object, on which no branch panics. -/
def marker (name : String) : Option Char :=
  (format_tool_use name (JValue.obj [])).map (fun r => r.data.headD ' ')

/-- Claim C2, counterexample.  The claim says the nine marker glyphs (the
eight named tools plus the unknown-tool fallback) are pairwise distinct, but
the `Glob` and `Grep` renderings both begin with the same magnifier glyph. -/
theorem c2_counterexample :
    marker "Glob" = some '🔍' ∧ marker "Grep" = some '🔍' ∧
      ("Glob" : String) ≠ "Grep" :=
  ⟨rfl, rfl, by decide⟩

/-- Claim C2, amended: among the renderings for Bash, Read, Edit, Write,
Glob, Grep, TodoWrite, Task and any unknown tool name, the marker glyphs are
pairwise distinct EXCEPT that Glob and Grep share the same magnifier glyph;
every unknown tool name gets the wrench glyph. -/
theorem c2_markers_distinct :
    (∀ n : String, n ≠ "Read" → n ≠ "Edit" → n ≠ "Write" → n ≠ "Bash" →
      n ≠ "Glob" → n ≠ "Grep" → n ≠ "TodoWrite" → n ≠ "Task" →
      marker n = some '🔧') ∧
    [marker "Bash", marker "Read", marker "Edit", marker "Write",
      marker "Glob", marker "TodoWrite", marker "Task",
      some '🔧'].Nodup ∧
    marker "Glob" = marker "Grep" := by
  refine ⟨?_, by decide, rfl⟩
  intro n h1 h2 h3 h4 h5 h6 h7 h8
  simp only [marker, format_tool_use, if_neg h1, if_neg h2, if_neg h3,
    if_neg h4, if_neg h5, if_neg h6, if_neg h7, if_neg h8, Option.map_some']
  have : (("🔧 " : String) ++ n).data = '🔧' :: ' ' :: n.data := by
    rw [String.data_append]
    rfl
  rw [this]
  rfl

/-- Witness for the amended Claim C2 at a concrete unknown tool name. -/
theorem c2_markers_distinct_witness :
    marker "WebFetch" = some '🔧' ∧ marker "Glob" = marker "Grep" :=
  ⟨c2_markers_distinct.1 "WebFetch" (by decide) (by decide) (by decide)
      (by decide) (by decide) (by decide) (by decide) (by decide),
    c2_markers_distinct.2.2⟩

/-- Claim C5, counterexample.  The claim says every valid record with an
unrecognized top-level `type` decodes to a StreamMessage whose optional
fields are absent.  A record of kind `"proto"` carrying a `result` field
decodes successfully with `result = some "hi"`: the optional field is
present, not absent. -/
theorem c5_counterexample :
    decodeStreamMessage
        (JValue.obj [("type", JValue.str "proto"), ("result", JValue.str "hi")]) =
      some ⟨"proto", none, some "hi"⟩ ∧
    (some "hi" : Option String) ≠ none :=
  ⟨rfl, by decide⟩

/-- Claim C5, amended: a valid record whose top-level `type` is neither
`"assistant"` nor `"result"` and which carries no `message` or `result`
field decodes successfully into a StreamMessage whose kind is that
unrecognized string and whose optional fields are absent, and the formatter
produces nothing for it. -/
theorem c5_unknown_kind (fields : List (String × JValue)) (t : String)
    (ht : List.lookup "type" fields = some (JValue.str t))
    (ha : t ≠ "assistant") (hr : t ≠ "result")
    (hm : List.lookup "message" fields = none)
    (hres : List.lookup "result" fields = none) :
    decodeStreamMessage (JValue.obj fields) = some ⟨t, none, none⟩ ∧
      processMessage ⟨t, none, none⟩ = some none := by
  constructor
  · simp [decodeStreamMessage, decodeOptField, JValue.get, ht, hm, hres]
  · simp [processMessage, ha, hr]

/-- Witness for the amended Claim C5 at a concrete record. -/
theorem c5_unknown_kind_witness :
    decodeStreamMessage
        (JValue.obj [("type", JValue.str "system"), ("data", JValue.obj [])]) =
      some ⟨"system", none, none⟩ ∧
    processMessage ⟨"system", none, none⟩ = some none :=
  c5_unknown_kind [("type", JValue.str "system"), ("data", JValue.obj [])]
    "system" rfl (by decide) (by decide) rfl rfl

/-- Claim C7.  A content block whose string discriminator `type` is neither
`"text"` nor `"tool_use"` decodes to the `Other` variant (it does not fail
the parse), and an `Other` block contributes nothing to the formatted
output. -/
theorem c7_unknown_block_is_other (fields : List (String × JValue))
    (t : String) (ht : List.lookup "type" fields = some (JValue.str t))
    (h1 : t ≠ "text") (h2 : t ≠ "tool_use") :
    decodeContentBlock (JValue.obj fields) = some ContentBlock.Other ∧
      ∀ bs : List ContentBlock,
        renderBlocks (ContentBlock.Other :: bs) = renderBlocks bs := by
  constructor
  · simp [decodeContentBlock, JValue.get, ht, h1, h2]
  · intro bs
    rw [renderBlocks]

/-- Witness for Claim C7 at a concrete block with an unrecognized tag. -/
theorem c7_unknown_block_is_other_witness :
    decodeContentBlock
        (JValue.obj [("type", JValue.str "image"), ("source", JValue.str "x")]) =
      some ContentBlock.Other ∧
    renderBlocks [ContentBlock.Other] = renderBlocks [] :=
  ⟨(c7_unknown_block_is_other
      [("type", JValue.str "image"), ("source", JValue.str "x")] "image"
      rfl (by decide) (by decide)).1,
    (c7_unknown_block_is_other
      [("type", JValue.str "image"), ("source", JValue.str "x")] "image"
      rfl (by decide) (by decide)).2 []⟩

/-- Rendering a content list of `Text` blocks whose texts all trim to
non-empty collects exactly those texts, in order. -/
lemma renderBlocks_texts (texts : List String)
    (h : ∀ t ∈ texts, rustTrim t ≠ "") :
    renderBlocks (texts.map ContentBlock.Text) = some texts := by
  induction texts with
  | nil => rfl
  | cons t ts ih =>
    have ht := h t (List.mem_cons_self t ts)
    have hts : ∀ u ∈ ts, rustTrim u ≠ "" :=
      fun u hu => h u (List.mem_cons_of_mem t hu)
    simp [renderBlocks, ht, ih hts]

/-- Claim C4.  A decoded `"assistant"` message whose (non-empty) content is
only `Text` blocks, each with non-empty trimmed text, is formatted as exactly
those texts — untrimmed, verbatim, in order — joined by single newlines. -/
theorem c4_assistant_text_verbatim (texts : List String) (res : Option String)
    (hne : texts ≠ [])
    (h : ∀ t ∈ texts, rustTrim t ≠ "") :
    processMessage ⟨"assistant", some ⟨texts.map ContentBlock.Text⟩, res⟩ =
      some (some (joinNl texts)) := by
  simp only [processMessage, if_pos rfl, renderBlocks_texts texts h]
  cases texts with
  | nil => exact absurd rfl hne
  | cons t ts => rfl

/-- Witness for Claim C4 at a concrete two-text message (note the second
text keeps its surrounding whitespace verbatim). -/
theorem c4_assistant_text_verbatim_witness :
    processMessage
        ⟨"assistant",
          some ⟨["Hello", " world "].map ContentBlock.Text⟩, none⟩ =
      some (some (joinNl ["Hello", " world "])) :=
  c4_assistant_text_verbatim ["Hello", " world "] none (by decide)
    (by decide)

/-- A content list of whitespace-only `Text` blocks and `Other` blocks
contributes no lines. -/
lemma renderBlocks_blank (blocks : List ContentBlock)
    (h : ∀ b ∈ blocks,
      (∃ t, b = ContentBlock.Text t ∧ rustTrim t = "") ∨
        b = ContentBlock.Other) :
    renderBlocks blocks = some [] := by
  induction blocks with
  | nil => rfl
  | cons b bs ih =>
    have hbs : ∀ b ∈ bs,
        (∃ t, b = ContentBlock.Text t ∧ rustTrim t = "") ∨
          b = ContentBlock.Other :=
      fun c hc => h c (List.mem_cons_of_mem b hc)
    rcases h b (List.mem_cons_self b bs) with ⟨t, rfl, htr⟩ | rfl
    · simp [renderBlocks, htr, ih hbs]
    · simp [renderBlocks, ih hbs]

/-- Claim C9.  A decoded `"assistant"` message whose content is empty, or
holds only whitespace-only `Text` blocks and `Other` blocks, produces no
output line. -/
theorem c9_assistant_blank_is_silent (blocks : List ContentBlock)
    (res : Option String)
    (h : ∀ b ∈ blocks,
      (∃ t, b = ContentBlock.Text t ∧ rustTrim t = "") ∨
        b = ContentBlock.Other) :
    processMessage ⟨"assistant", some ⟨blocks⟩, res⟩ = some none := by
  simp [processMessage, renderBlocks_blank blocks h]

/-- Witness for Claim C9 at a concrete message holding a whitespace-only
text block and an unrecognized block. -/
theorem c9_assistant_blank_is_silent_witness :
    processMessage
        ⟨"assistant", some ⟨[ContentBlock.Text "  ", ContentBlock.Other]⟩,
          none⟩ = some none := by
  apply c9_assistant_blank_is_silent
  intro b hb
  rcases List.mem_cons.mp hb with rfl | hb'
  · exact Or.inl ⟨"  ", rfl, by decide⟩
  · rcases List.mem_cons.mp hb' with rfl | hb''
    · exact Or.inr rfl
    · exact absurd hb'' (List.not_mem_nil b)

/-- Claim C10.  Whenever processing an input line yields an output string,
that string is non-empty: the program never emits a blank output line. -/
lemma pm_assistant_none (mr : Option String) :
    processMessage ⟨"assistant", none, mr⟩ = some none := rfl

lemma pm_assistant_some (am : AssistantMessage) (mr : Option String) :
    processMessage ⟨"assistant", some am, mr⟩ =
      match renderBlocks am.content with
      | none => none
      | some out =>
        some (if out.isEmpty then none else some (joinNl out)) := rfl

lemma pm_assistant_panic (am : AssistantMessage) (mr : Option String)
    (hrb : renderBlocks am.content = none) :
    processMessage ⟨"assistant", some am, mr⟩ = none := by
  rw [pm_assistant_some, hrb]

lemma pm_assistant_out (am : AssistantMessage) (mr : Option String)
    (out : List String) (hrb : renderBlocks am.content = some out) :
    processMessage ⟨"assistant", some am, mr⟩ =
      some (if out.isEmpty then none else some (joinNl out)) := by
  rw [pm_assistant_some, hrb]

lemma pm_result_none (mm : Option AssistantMessage) :
    processMessage ⟨"result", mm, none⟩ = some none := rfl

lemma pm_result_some (mm : Option AssistantMessage) (r : String) :
    processMessage ⟨"result", mm, some r⟩ =
      (truncate r 80).map (fun t => some ("✅ Done: " ++ t)) := rfl

lemma pm_other_kind (mt : String) (mm : Option AssistantMessage)
    (mr : Option String) (h1 : mt ≠ "assistant") (h2 : mt ≠ "result") :
    processMessage ⟨mt, mm, mr⟩ = some none := by
  simp [processMessage, h1, h2]

/-- Claim C10.  Whenever processing an input line yields an output string,
that string is non-empty: the program never emits a blank output line. -/
theorem c10_output_never_blank (j : JValue) (s : String)
    (h : processLine j = some (some s)) : s ≠ "" := by
  rw [processLine] at h
  split at h
  case h_1 => exact absurd h (by simp)
  case h_2 m hdec =>
    obtain ⟨mt, mm, mr⟩ := m
    by_cases h1 : mt = "assistant"
    · subst h1
      cases mm with
      | none => rw [pm_assistant_none] at h; exact absurd h (by simp)
      | some am =>
        cases hrb : renderBlocks am.content with
        | none =>
          rw [pm_assistant_panic am mr hrb] at h
          exact absurd h (by simp)
        | some out =>
          rw [pm_assistant_out am mr out hrb] at h
          simp only [Option.some.injEq] at h
          by_cases hemp : out.isEmpty
          · rw [if_pos hemp] at h; exact absurd h (by simp)
          · rw [if_neg hemp] at h
            have hs : s = joinNl out := by simpa using h.symm
            cases out with
            | nil => simp at hemp
            | cons x xs =>
              have hx : x ≠ "" :=
                renderBlocks_ne_empty am.content (x :: xs) hrb x
                  (List.mem_cons_self x xs)
              rw [hs]
              exact joinNl_ne_empty x xs hx
    · by_cases h2 : mt = "result"
      · subst h2
        cases mr with
        | none => rw [pm_result_none] at h; exact absurd h (by simp)
        | some r =>
          rw [pm_result_some] at h
          rw [Option.map_eq_some'] at h
          obtain ⟨t, _, ht⟩ := h
          have hs : s = "✅ Done: " ++ t := by simpa using ht.symm
          rw [hs]
          exact append_ne_empty_left _ _ (by decide)
      · rw [pm_other_kind mt mm mr h1 h2] at h
        exact absurd h (by simp)

/-- Witness for Claim C10 at a concrete result line. -/
theorem c10_output_never_blank_witness :
    processLine (JValue.obj [("type", JValue.str "result"),
        ("result", JValue.str "ok")]) = some (some "✅ Done: ok") ∧
      ("✅ Done: ok" : String) ≠ "" :=
  ⟨rfl,
    c10_output_never_blank
      (JValue.obj [("type", JValue.str "result"), ("result", JValue.str "ok")])
      "✅ Done: ok" rfl⟩

end StreamFormat
